import Mathlib

/-!
Sleeper transaction tracker: aggregation, ranking, collector and directory cache.

A shallow embedding of `src/app.js` (the live path) and `src/scripts/update_data.js`
(the batch path), with the properties of the aggregation engine stated over it.

Modelling conventions:

* JavaScript numbers are `JSNum`: `NaN`, the two infinities and the finite values, the
  latter as exact rationals.  Arithmetic follows IEEE 754 on the special values and is
  exact on the finite ones, so rounding and overflow of doubles are not represented;
  on integers below `2 ^ 53` the two coincide.  The two zeros are identified.
* The values a record's `type` or a quantity may hold are the primitives `JSVal`
  (`undefined`, `null`, booleans, numbers, strings); `Number` and `ToBoolean` are modelled
  on them, `StringToNumber` with its whole literal grammar.
* A plain object is a `JSObject`: its own properties in creation order, one per key.
  `Object.entries` / `Object.keys` follow the own-property order of the language:
  array-index keys first, ascending, then the other keys in creation order.
  Keys that name inherited members of `Object.prototype` are not represented.
* A transaction record is `Option Tx`: `none` is a falsy array element, `some t` an object
  with the three fields the code reads; `adds` and `drops` are a mapping, or absent when
  the field is falsy.  A truthy field of another shape (an array, a string) enumerates
  under `Object.entries` like the mapping with the same entries.
* The player directory maps ids to records with string `first_name` and `last_name`.
* `Array.prototype.sort` is the stable sort the language prescribes.
* Network requests, the clock and `localStorage` are explicit arguments and results.
-/

namespace JS

/-! ## Numbers -/

/-- A JavaScript number: `NaN`, `±Infinity` (`inf true` is `-Infinity`) or a finite value. -/
inductive JSNum where
  | nan : JSNum
  | inf (negative : Bool) : JSNum
  | fin (q : ℚ) : JSNum
  deriving DecidableEq

namespace JSNum

/-- The operator `+` on numbers. -/
def add : JSNum → JSNum → JSNum
  | nan, _ => nan
  | _, nan => nan
  | inf a, inf b => if a = b then inf a else nan
  | inf a, fin _ => inf a
  | fin _, inf b => inf b
  | fin a, fin b => fin (a + b)

/-- Unary minus. -/
def neg : JSNum → JSNum
  | nan => nan
  | inf a => inf (!a)
  | fin q => fin (-q)

/-- The operator `-` on numbers. -/
def sub (a b : JSNum) : JSNum := add a (neg b)

/-- The operator `*` on numbers. -/
def mul : JSNum → JSNum → JSNum
  | nan, _ => nan
  | _, nan => nan
  | inf a, inf b => inf (a != b)
  | inf a, fin q => if q = 0 then nan else inf (a != decide (q < 0))
  | fin q, inf b => if q = 0 then nan else inf (decide (q < 0) != b)
  | fin a, fin b => fin (a * b)

/-- The conversion `ToBoolean` on numbers: `NaN` and zero are falsy. -/
def truthy : JSNum → Bool
  | nan => false
  | inf _ => true
  | fin q => decide (q ≠ 0)

/-- The expression `a || b` when `a` is a number. -/
def orElse (a b : JSNum) : JSNum := if a.truthy then a else b

/-- The comparison `a < b` on numbers (false when either side is `NaN`). -/
def lt : JSNum → JSNum → Bool
  | nan, _ => false
  | _, nan => false
  | inf a, inf b => a && !b
  | inf a, fin _ => a
  | fin _, inf b => !b
  | fin a, fin b => decide (a < b)

/-- A natural number as a JavaScript number. -/
def ofNat (n : Nat) : JSNum := fin n

end JSNum

/-! ## Primitive values -/

/-- The primitive values a JSON field can hold, plus `undefined` for an absent property. -/
inductive JSVal where
  | undefined : JSVal
  | null : JSVal
  | bool (b : Bool) : JSVal
  | num (n : JSNum) : JSVal
  | str (s : String) : JSVal
  deriving DecidableEq

/-- White space and line terminators skipped by `StringToNumber`. -/
def isStrWhiteSpaceChar (c : Char) : Bool :=
  decide (c.toNat ∈ [0x9, 0xA, 0xB, 0xC, 0xD, 0x20, 0xA0, 0x1680, 0x2000, 0x2001, 0x2002,
    0x2003, 0x2004, 0x2005, 0x2006, 0x2007, 0x2008, 0x2009, 0x200A, 0x2028, 0x2029, 0x202F,
    0x205F, 0x3000, 0xFEFF])

/-- Value of a digit character in the given base, if it is one. -/
def digitValue (base : Nat) (c : Char) : Option Nat :=
  let n := c.toNat
  let v : Option Nat :=
    if 48 ≤ n ∧ n ≤ 57 then some (n - 48)
    else if 97 ≤ n ∧ n ≤ 102 then some (n - 87)
    else if 65 ≤ n ∧ n ≤ 70 then some (n - 55)
    else none
  match v with
  | some d => if d < base then some d else none
  | none => none

/-- Value of a non-empty run of digits in the given base; `none` if empty or not all digits. -/
def parseDigits (base : Nat) (cs : List Char) : Option Nat :=
  if cs.isEmpty then none
  else cs.foldl (fun acc c =>
    match acc, digitValue base c with
    | some n, some d => some (n * base + d)
    | _, _ => none) (some 0)

/-- The `ExponentPart` that may follow a decimal mantissa; the input must be consumed whole. -/
def parseExponent : List Char → Option Int
  | [] => some 0
  | c :: rest =>
    if c = 'e' ∨ c = 'E' then
      match rest with
      | '+' :: ds => (parseDigits 10 ds).map Int.ofNat
      | '-' :: ds => (parseDigits 10 ds).map (fun n => - Int.ofNat n)
      | ds => (parseDigits 10 ds).map Int.ofNat
    else none

/-- A `StrUnsignedDecimalLiteral`: `Infinity`, or digits with an optional fraction and
exponent, with its exact value. -/
def parseUnsignedDecimal (cs : List Char) : Option JSNum :=
  if cs = ['I', 'n', 'f', 'i', 'n', 'i', 't', 'y'] then some (JSNum.inf false)
  else
    let ip := cs.takeWhile Char.isDigit
    let r1 := cs.dropWhile Char.isDigit
    let fp := match r1 with
      | '.' :: r => r.takeWhile Char.isDigit
      | _ => []
    let r2 := match r1 with
      | '.' :: r => r.dropWhile Char.isDigit
      | _ => r1
    if ip.isEmpty ∧ fp.isEmpty then none
    else
      match parseExponent r2 with
      | none => none
      | some e =>
        some (JSNum.fin (((parseDigits 10 (ip ++ fp)).getD 0 : ℚ) * 10 ^ (e - fp.length)))

/-- A `StrNumericLiteral` (no surrounding white space). -/
def parseNumericLiteral (cs : List Char) : Option JSNum :=
  match cs with
  | [] => some (JSNum.fin 0)
  | '0' :: 'x' :: ds => (parseDigits 16 ds).map JSNum.ofNat
  | '0' :: 'X' :: ds => (parseDigits 16 ds).map JSNum.ofNat
  | '0' :: 'o' :: ds => (parseDigits 8 ds).map JSNum.ofNat
  | '0' :: 'O' :: ds => (parseDigits 8 ds).map JSNum.ofNat
  | '0' :: 'b' :: ds => (parseDigits 2 ds).map JSNum.ofNat
  | '0' :: 'B' :: ds => (parseDigits 2 ds).map JSNum.ofNat
  | '+' :: ds => parseUnsignedDecimal ds
  | '-' :: ds => (parseUnsignedDecimal ds).map JSNum.neg
  | ds => parseUnsignedDecimal ds

/-- The conversion `StringToNumber`: trim white space, read a numeric literal, else `NaN`. -/
def stringToNumber (s : String) : JSNum :=
  let body := ((s.data.dropWhile isStrWhiteSpaceChar).reverse.dropWhile
    isStrWhiteSpaceChar).reverse
  (parseNumericLiteral body).getD JSNum.nan

/-- The call `Number(val)` on a primitive value. -/
def Number : JSVal → JSNum
  | .undefined => JSNum.nan
  | .null => JSNum.fin 0
  | .bool b => if b then JSNum.fin 1 else JSNum.fin 0
  | .num n => n
  | .str s => stringToNumber s

/-- The conversion `ToBoolean` on a primitive value. -/
def truthy : JSVal → Bool
  | .undefined => false
  | .null => false
  | .bool b => b
  | .num n => n.truthy
  | .str s => !s.data.isEmpty

/-! ## Plain objects -/

/-- The array index a property key denotes, if it is the canonical decimal form of an
integer below `2 ^ 32 - 1`; such keys are enumerated first, in ascending order. -/
def arrayIndex? (k : String) : Option Nat :=
  match parseDigits 10 k.data with
  | some n =>
    if (k.data = ['0'] ∨ k.data.head? ≠ some '0') ∧ n < 2 ^ 32 - 1 then some n else none
  | none => none

/-- Write `k := v` into a property list: overwrite in place, or append a new property. -/
def setList {α : Type} (k : String) (v : α) : List (String × α) → List (String × α)
  | [] => [(k, v)]
  | kv :: rest => if kv.1 = k then (kv.1, v) :: rest else kv :: setList k v rest

/-- The `Object.entries` order of a property list: array indices ascending, then the
remaining keys in creation order. -/
def orderEntries {α : Type} (l : List (String × α)) : List (String × α) :=
  (l.filter (fun kv => (arrayIndex? kv.1).isSome)).insertionSort
      (fun a b => (arrayIndex? a.1).getD 0 ≤ (arrayIndex? b.1).getD 0)
    ++ l.filter (fun kv => !(arrayIndex? kv.1).isSome)

/-- A plain object: own properties in creation order, at most one per key. -/
structure JSObject (α : Type) where
  props : List (String × α)
  nodup : (props.map Prod.fst).Nodup

namespace JSObject

/-- The object literal `{}`. -/
def empty {α : Type} : JSObject α := ⟨[], List.nodup_nil⟩

/-- The property read `o[k]`: `none` when `o` has no own property `k`. -/
def get {α : Type} (o : JSObject α) (k : String) : Option α := o.props.lookup k

/-- The property write `o[k] = v`. -/
def set {α : Type} (o : JSObject α) (k : String) (v : α) : JSObject α :=
  ⟨setList k v o.props, by
    have key : ∀ l : List (String × α), (setList k v l).map Prod.fst =
        if k ∈ l.map Prod.fst then l.map Prod.fst else l.map Prod.fst ++ [k] := by
      intro l
      induction l with
      | nil => simp [setList]
      | cons kv rest ih =>
        by_cases h : kv.1 = k
        · simp [setList, h]
        · have h2 : ¬ k = kv.1 := fun e => h e.symm
          by_cases hm : k ∈ rest.map Prod.fst
          · simp only [setList, h, if_false, List.map_cons, ih, if_pos hm, List.mem_cons, h2,
              false_or]
          · simp only [setList, h, if_false, List.map_cons, ih, if_neg hm, List.mem_cons, h2,
              false_or, List.cons_append]
    rw [key]
    split_ifs with hm
    · exact o.nodup
    · exact List.Nodup.append o.nodup (List.nodup_singleton k) (by simpa using hm)⟩

/-- The object `JSON.parse` builds from members in text order (a repeated key overwrites). -/
def ofList {α : Type} (l : List (String × α)) : JSObject α :=
  l.foldl (fun o kv => o.set kv.1 kv.2) empty

/-- The call `Object.entries(o)`. -/
def entries {α : Type} (o : JSObject α) : List (String × α) := orderEntries o.props

/-- The call `Object.keys(o)`. -/
def keys {α : Type} (o : JSObject α) : List String := o.entries.map Prod.fst

end JSObject

/-- The call `arr.sort(cmp)`: a stable sort that puts `a` after `b` only when
`cmp(a, b) > 0`. -/
def jsSort {α : Type} (cmp : α → α → JSNum) (l : List α) : List α :=
  l.insertionSort (fun a b => JSNum.lt (JSNum.fin 0) (cmp a b) = false)

end JS

/-! ## Data model -/

open JS

/-- A transaction record as the code reads it: `t.type`, `t.adds`, `t.drops`
(`none` for a field that is absent or `null`). -/
structure Tx where
  type : JSVal
  adds : Option (JSObject JSVal)
  drops : Option (JSObject JSVal)

/-- The per-player object `{adds, trades, drops}` held in `metrics`. -/
structure Counters where
  adds : JSNum
  trades : Nat
  drops : JSNum
  deriving DecidableEq

/-- A player record of the directory, with the two fields the code reads. -/
structure Player where
  first_name : String
  last_name : String
  deriving DecidableEq

/-- One row of a league's result: `{player_id, name, adds, trades, drops, score}`. -/
structure Entry where
  player_id : String
  name : String
  adds : JSNum
  trades : Nat
  drops : JSNum
  score : JSNum
  deriving DecidableEq

/-- The literal `{adds:0,trades:0,drops:0}`. -/
def newCounters : Counters := ⟨JSNum.fin 0, 0, JSNum.fin 0⟩

/-- The statements `const m = metrics[pid] = metrics[pid] || {adds:0,trades:0,drops:0};
m.adds += Number(val) || 1;`. -/
def bumpAdds (metrics : JSObject Counters) (pid : String) (val : JSVal) : JSObject Counters :=
  let m := (metrics.get pid).getD newCounters
  metrics.set pid { m with adds := m.adds.add ((Number val).orElse (JSNum.fin 1)) }

/-- The statements `const m = metrics[pid] = metrics[pid] || {adds:0,trades:0,drops:0};
m.drops += Number(val) || 1;`. -/
def bumpDrops (metrics : JSObject Counters) (pid : String) (val : JSVal) : JSObject Counters :=
  let m := (metrics.get pid).getD newCounters
  metrics.set pid { m with drops := m.drops.add ((Number val).orElse (JSNum.fin 1)) }

/-- The statements `const m = metrics[pid] = metrics[pid] || {adds:0,trades:0,drops:0};
m.trades += 1;`. -/
def bumpTrades (metrics : JSObject Counters) (pid : String) : JSObject Counters :=
  let m := (metrics.get pid).getD newCounters
  metrics.set pid { m with trades := m.trades + 1 }

/-- The loop `for (const [pid, val] of Object.entries(t.adds))` guarded by `if (t.adds)`. -/
def addsLoop (metrics : JSObject Counters) (adds : Option (JSObject JSVal)) :
    JSObject Counters :=
  match adds with
  | some a => a.entries.foldl (fun m kv => bumpAdds m kv.1 kv.2) metrics
  | none => metrics

/-- The loop `for (const [pid, val] of Object.entries(t.drops))` guarded by `if (t.drops)`. -/
def dropsLoop (metrics : JSObject Counters) (drops : Option (JSObject JSVal)) :
    JSObject Counters :=
  match drops with
  | some d => d.entries.foldl (fun m kv => bumpDrops m kv.1 kv.2) metrics
  | none => metrics

/-- The loop `for (const pid of Object.keys(t.adds))` guarded by
`t.type === 'trade'` and `t.adds`. -/
def tradesLoop (metrics : JSObject Counters) (t : Tx) : JSObject Counters :=
  if t.type = JSVal.str "trade" then
    match t.adds with
    | some a => a.keys.foldl bumpTrades metrics
    | none => metrics
  else metrics

/-- The expression `(m.adds || 0) * 1 + (m.trades || 0) * 3`. -/
def scoreOf (m : Counters) : JSNum :=
  JSNum.add (JSNum.mul (m.adds.orElse (JSNum.fin 0)) (JSNum.fin 1))
    (JSNum.mul ((JSNum.ofNat m.trades).orElse (JSNum.fin 0)) (JSNum.fin 3))

/-- The comparator `(a,b) => b.score - a.score`. -/
def byScoreDesc (a b : Entry) : JSNum := JSNum.sub b.score a.score

namespace App

/-- One iteration of `for (const t of txs)` in `buildSummary` (app.js 108-132). -/
def foldRecord (metrics : JSObject Counters) (t : Option Tx) : JSObject Counters :=
  match t with
  | none => metrics
  | some t =>
    if !(truthy t.type) then metrics
    else tradesLoop (dropsLoop (addsLoop metrics t.adds) t.drops) t

/-- The aggregation loop of `buildSummary`: `metrics` after `for (const t of txs)`. -/
def metricsLoop (txs : List (Option Tx)) : JSObject Counters :=
  txs.foldl foldRecord JSObject.empty

/-- The callback of `Object.entries(metrics).map(...)` in `buildSummary` (app.js 134-139);
`players` is `none` when the directory value is falsy. -/
def toEntry (players : Option (JSObject Player)) (kv : String × Counters) : Entry :=
  let p := players.bind (fun d => d.get kv.1)
  let name := match p with
    | some p => p.first_name ++ " " ++ p.last_name
    | none => kv.1
  ⟨kv.1, name, kv.2.adds, kv.2.trades, kv.2.drops, scoreOf kv.2⟩

/-- The array `arr` that `buildSummary` stores for one league. -/
def leagueArr (txs : List (Option Tx)) (players : Option (JSObject Player)) : List Entry :=
  jsSort byScoreDesc ((metricsLoop txs).entries.map (toEntry players))

end App

namespace UpdateData

/-- One iteration of `for (const t of txs)` in the batch script (update_data.js 36-52). -/
def foldRecord (metrics : JSObject Counters) (t : Option Tx) : JSObject Counters :=
  match t with
  | none => metrics
  | some t =>
    let m2 := dropsLoop (addsLoop metrics t.adds) t.drops
    if t.type = JSVal.str "trade" ∧ t.adds.isSome then
      match t.adds with
      | some a => a.keys.foldl bumpTrades m2
      | none => m2
    else m2

/-- The aggregation loop of the batch script: `metrics` after `for (const t of txs)`. -/
def metricsLoop (txs : List (Option Tx)) : JSObject Counters :=
  txs.foldl foldRecord JSObject.empty

/-- The callback of `Object.entries(metrics).map(...)` in the batch script (54-58). -/
def toEntry (players : JSObject Player) (kv : String × Counters) : Entry :=
  let name := match players.get kv.1 with
    | some p => p.first_name ++ " " ++ p.last_name
    | none => kv.1
  ⟨kv.1, name, kv.2.adds, kv.2.trades, kv.2.drops, scoreOf kv.2⟩

/-- The array `summary` the batch script writes for one league (update_data.js 54-58). -/
def summary (txs : List (Option Tx)) (players : JSObject Player) : List Entry :=
  jsSort byScoreDesc ((metricsLoop txs).entries.map (toEntry players))

end UpdateData

/-! ## Transaction collector -/

namespace App

end App

namespace UpdateData

end UpdateData

/-- What `JSON.parse(raw)` can yield for the stored item, as far as `getPlayersMap` looks:
text that does not parse or parses to `null` (both throw inside the `try`), an object with
`ts` and `data` properties, or a bare directory, whose `ts` is `undefined` or a player
record and converts to `NaN`. -/
inductive CacheItem where
  | unreadable : CacheItem
  | stamped (ts : JSVal) (data : JSObject Player) : CacheItem
  | directory (players : JSObject Player) : CacheItem

/-- Outcome of one call of `getPlayersMap`: the value returned or the error thrown, the
stored item afterwards, and the number of network fetches issued. -/
structure CacheCall where
  value : Except String (JSObject Player)
  store : Option CacheItem
  fetches : Nat

namespace App

/-- The cache read of `getPlayersMap` (app.js 88-96): the data returned early, if any. -/
def cacheRead (store : Option CacheItem) (now : Nat) : Option (JSObject Player) :=
  match store with
  | some (.stamped ts data) =>
    if JSNum.lt (JSNum.sub (JSNum.ofNat now) (Number ts)) (JSNum.ofNat (24 * 3600 * 1000))
    then some data else none
  | some (.directory _) => none
  | some .unreadable => none
  | none => none

/-- The function `getPlayersMap()` (app.js 85-102) over explicit state: `store` is the item
under the key `sleeper_players_cache` (`none` when absent or empty), `now` is `Date.now()`, and
`fetch` is what the request for the directory yields (`none` when it throws). -/
def getPlayersMap (store : Option CacheItem) (now : Nat) (fetch : Option (JSObject Player)) :
    CacheCall :=
  match cacheRead store now with
  | some data => ⟨pure data, store, 0⟩
  | none =>
    match fetch with
    | some players => ⟨pure players, some (.directory players), 1⟩
    | none => ⟨throw "Failed to fetch", store, 1⟩

end App

/-! ## Auxiliary definitions for the proofs -/

/-- Field-wise sum of two counter objects. -/
def Counters.plus (c d : Counters) : Counters :=
  ⟨c.adds.add d.adds, c.trades + d.trades, c.drops.add d.drops⟩

/-- Add `d` to the counters of `pid`, creating them at zero first if needed. -/
def applyDelta (metrics : JSObject Counters) (pid : String) (d : Counters) :
    JSObject Counters :=
  metrics.set pid (((metrics.get pid).getD newCounters).plus d)

/-- Apply a list of per-player increments in order. -/
def foldDeltas (metrics : JSObject Counters) (ds : List (String × Counters)) :
    JSObject Counters :=
  ds.foldl (fun m kd => applyDelta m kd.1 kd.2) metrics

/-- The increment `Number(val) || 1`. -/
def quantity (val : JSVal) : JSNum := (Number val).orElse (JSNum.fin 1)

/-- Increments of the `adds` loop. -/
def addsDeltas (adds : Option (JSObject JSVal)) : List (String × Counters) :=
  match adds with
  | some a => a.entries.map (fun kv => (kv.1, ⟨quantity kv.2, 0, JSNum.fin 0⟩))
  | none => []

/-- Increments of the `drops` loop. -/
def dropsDeltas (drops : Option (JSObject JSVal)) : List (String × Counters) :=
  match drops with
  | some d => d.entries.map (fun kv => (kv.1, ⟨JSNum.fin 0, 0, quantity kv.2⟩))
  | none => []

/-- Increments of the `trades` loop. -/
def tradesDeltas (t : Tx) : List (String × Counters) :=
  if t.type = JSVal.str "trade" then
    match t.adds with
    | some a => a.keys.map (fun k => (k, ⟨JSNum.fin 0, 1, JSNum.fin 0⟩))
    | none => []
  else []

/-- All increments one record makes on the live path. -/
def App.recordDeltas (t : Option Tx) : List (String × Counters) :=
  match t with
  | none => []
  | some t =>
    if !(truthy t.type) then []
    else addsDeltas t.adds ++ dropsDeltas t.drops ++ tradesDeltas t

/-- All increments one record makes on the batch path. -/
def UpdateData.recordDeltas (t : Option Tx) : List (String × Counters) :=
  match t with
  | none => []
  | some t => addsDeltas t.adds ++ dropsDeltas t.drops ++ tradesDeltas t

/-- The record `{type: "waiver", adds: {[pid]: q}}`. -/
def waiverAdd (pid : String) (q : JSVal) : Tx :=
  ⟨JSVal.str "waiver", some (JSObject.ofList [(pid, q)]), none⟩

/-- The record `{type: "waiver", drops: {[pid]: q}}`. -/
def waiverDrop (pid : String) (q : JSVal) : Tx :=
  ⟨JSVal.str "waiver", none, some (JSObject.ofList [(pid, q)])⟩

/-- The record `{type: "trade", adds: {"100": 1, "200": 1}}`. -/
def tradeOfTwo : Tx :=
  ⟨JSVal.str "trade",
    some (JSObject.ofList [("100", JSVal.num (JSNum.fin 1)), ("200", JSVal.num (JSNum.fin 1))]),
    none⟩

/-- A player directory with the single player 7. -/
def oneManDirectory : JSObject Player := JSObject.ofList [("7", ⟨"Ada", "Lovelace"⟩)]

/-- The record `{adds: {"7": 1}}`, which has no `type`. -/
def untypedAdd : Tx :=
  ⟨JSVal.undefined, some (JSObject.ofList [("7", JSVal.num (JSNum.fin 1))]), none⟩

/-! ## Sanity checks of the value model -/

/-- The conversion `StringToNumber` on a few literals: decimal, hexadecimal with surrounding
white space, fractional, exponent, empty, non-numeric, signed hexadecimal and `Infinity`. -/
theorem stringToNumber_examples :
    stringToNumber "12" = JSNum.fin 12 ∧ stringToNumber " 0x10 " = JSNum.fin 16 ∧
    stringToNumber "1.5" = JSNum.fin (3 / 2) ∧ stringToNumber "1e3" = JSNum.fin 1000 ∧
    stringToNumber "" = JSNum.fin 0 ∧ stringToNumber "abc" = JSNum.nan ∧
    stringToNumber "12px" = JSNum.nan ∧ stringToNumber "-0x10" = JSNum.nan ∧
    stringToNumber "-Infinity" = JSNum.inf true := by
  decide!

/-- Which property keys are array indices: canonical decimal integers below `2 ^ 32 - 1`. -/
theorem arrayIndex_examples :
    arrayIndex? "20" = some 20 ∧ arrayIndex? "100" = some 100 ∧ arrayIndex? "0" = some 0 ∧
    arrayIndex? "007" = none ∧ arrayIndex? "-1" = none ∧ arrayIndex? "SF" = none ∧
    arrayIndex? "4294967294" = some 4294967294 ∧ arrayIndex? "4294967295" = none := by
  decide!

/-- The call `Object.entries` puts the array-index keys first, in ascending order. -/
theorem entries_example :
    (JSObject.ofList [("b", 1), ("100", 2), ("a", 3), ("20", 4), ("b", 5)]).entries =
      [("20", 4), ("100", 2), ("b", 5), ("a", 3)] := by
  decide!

/-! ## Arithmetic of `JSNum` -/

theorem JSNum_add_zero (a : JSNum) : a.add (JSNum.fin 0) = a := by
  cases a <;> simp [JSNum.add]

theorem foldDeltas_append (m : JSObject Counters) (l₁ l₂ : List (String × Counters)) :
    foldDeltas m (l₁ ++ l₂) = foldDeltas (foldDeltas m l₁) l₂ := by
  simp [foldDeltas, List.foldl_append]

/-! ## Each loop of the source is a fold of increments -/

theorem bumpAdds_eq (m : JSObject Counters) (pid : String) (val : JSVal) :
    bumpAdds m pid val = applyDelta m pid ⟨quantity val, 0, JSNum.fin 0⟩ := by
  simp [bumpAdds, applyDelta, Counters.plus, quantity, JSNum_add_zero]

theorem bumpDrops_eq (m : JSObject Counters) (pid : String) (val : JSVal) :
    bumpDrops m pid val = applyDelta m pid ⟨JSNum.fin 0, 0, quantity val⟩ := by
  simp [bumpDrops, applyDelta, Counters.plus, quantity, JSNum_add_zero]

theorem bumpTrades_eq (m : JSObject Counters) (pid : String) :
    bumpTrades m pid = applyDelta m pid ⟨JSNum.fin 0, 1, JSNum.fin 0⟩ := by
  simp [bumpTrades, applyDelta, Counters.plus, JSNum_add_zero]

theorem bumpTrades_fun :
    bumpTrades = fun m pid => applyDelta m pid ⟨JSNum.fin 0, 1, JSNum.fin 0⟩ := by
  funext m pid
  exact bumpTrades_eq m pid

theorem addsLoop_eq (m : JSObject Counters) (adds : Option (JSObject JSVal)) :
    addsLoop m adds = foldDeltas m (addsDeltas adds) := by
  cases adds with
  | none => rfl
  | some a =>
    simp only [addsLoop, addsDeltas, foldDeltas, List.foldl_map, bumpAdds_eq]

theorem dropsLoop_eq (m : JSObject Counters) (drops : Option (JSObject JSVal)) :
    dropsLoop m drops = foldDeltas m (dropsDeltas drops) := by
  cases drops with
  | none => rfl
  | some a =>
    simp only [dropsLoop, dropsDeltas, foldDeltas, List.foldl_map, bumpDrops_eq]

theorem tradesLoop_eq (m : JSObject Counters) (t : Tx) :
    tradesLoop m t = foldDeltas m (tradesDeltas t) := by
  unfold tradesLoop tradesDeltas
  split_ifs
  · cases t.adds with
    | none => rfl
    | some a => simp only [foldDeltas, List.foldl_map, bumpTrades_fun]
  · rfl

theorem App_foldRecord_eq (m : JSObject Counters) (t : Option Tx) :
    App.foldRecord m t = foldDeltas m (App.recordDeltas t) := by
  cases t with
  | none => rfl
  | some t =>
    simp only [App.foldRecord, App.recordDeltas]
    split_ifs
    · rfl
    · simp only [foldDeltas_append, addsLoop_eq, dropsLoop_eq, tradesLoop_eq]

theorem UpdateData_foldRecord_eq (m : JSObject Counters) (t : Option Tx) :
    UpdateData.foldRecord m t = foldDeltas m (UpdateData.recordDeltas t) := by
  cases t with
  | none => rfl
  | some t =>
    unfold UpdateData.foldRecord UpdateData.recordDeltas
    simp only [foldDeltas_append, addsLoop_eq, dropsLoop_eq]
    unfold tradesDeltas
    by_cases h : t.type = JSVal.str "trade"
    · cases ha : t.adds with
      | none => simp [h, foldDeltas]
      | some a => simp [h, foldDeltas, List.foldl_map, bumpTrades_fun]
    · simp [h, foldDeltas]

theorem App_metricsLoop_eq (txs : List (Option Tx)) :
    App.metricsLoop txs = foldDeltas JSObject.empty (txs.flatMap App.recordDeltas) := by
  unfold App.metricsLoop
  generalize (JSObject.empty : JSObject Counters) = m
  induction txs generalizing m with
  | nil => rfl
  | cons t rest ih =>
    simp only [List.foldl_cons, List.flatMap_cons, foldDeltas_append, ih, App_foldRecord_eq]

theorem UpdateData_metricsLoop_eq (txs : List (Option Tx)) :
    UpdateData.metricsLoop txs =
      foldDeltas JSObject.empty (txs.flatMap UpdateData.recordDeltas) := by
  unfold UpdateData.metricsLoop
  generalize (JSObject.empty : JSObject Counters) = m
  induction txs generalizing m with
  | nil => rfl
  | cons t rest ih =>
    simp only [List.foldl_cons, List.flatMap_cons, foldDeltas_append, ih,
      UpdateData_foldRecord_eq]

theorem keys_setList {α : Type} (k : String) (v : α) (l : List (String × α)) :
    (setList k v l).map Prod.fst =
      if k ∈ l.map Prod.fst then l.map Prod.fst else l.map Prod.fst ++ [k] := by
  induction l with
  | nil => simp [setList]
  | cons kv rest ih =>
    by_cases h : kv.1 = k
    · simp [setList, h]
    · have h2 : ¬ k = kv.1 := fun e => h e.symm
      by_cases hm : k ∈ rest.map Prod.fst
      · simp only [setList, h, if_false, List.map_cons, ih, if_pos hm, List.mem_cons, h2,
          false_or]
      · simp only [setList, h, if_false, List.map_cons, ih, if_neg hm, List.mem_cons, h2,
          false_or, List.cons_append]

theorem keys_foldDeltas (ds : List (String × Counters)) (m : JSObject Counters) :
    (foldDeltas m ds).props.map Prod.fst =
      (ds.map Prod.fst).foldl (fun ks k => if k ∈ ks then ks else ks ++ [k])
        (m.props.map Prod.fst) := by
  induction ds generalizing m with
  | nil => rfl
  | cons kd rest ih =>
    have h := ih (applyDelta m kd.1 kd.2)
    unfold foldDeltas at h ⊢
    simp only [List.foldl_cons, List.map_cons]
    rw [h]
    congr 1
    exact keys_setList _ _ _

theorem cmp_equal_scores (x : JSNum) :
    JSNum.lt (JSNum.fin 0) (JSNum.sub x x) = false := by
  cases x with
  | nan => rfl
  | inf a => cases a <;> rfl
  | fin q => simp [JSNum.sub, JSNum.neg, JSNum.add, JSNum.lt]

theorem orderEntries_pair {α : Type} (l : List (String × α)) (x y : String × α)
    (h : List.Sublist [x, y] (orderEntries l)) :
    (∀ i j, arrayIndex? x.1 = some i → arrayIndex? y.1 = some j → i ≤ j) ∧
    (arrayIndex? x.1 = none → arrayIndex? y.1 = none ∧ List.Sublist [x, y] l) := by
  unfold orderEntries at h
  set S := (l.filter (fun kv => (arrayIndex? kv.1).isSome)).insertionSort
    (fun a b => (arrayIndex? a.1).getD 0 ≤ (arrayIndex? b.1).getD 0) with hS
  set N := l.filter (fun kv => !(arrayIndex? kv.1).isSome) with hN
  have memS : ∀ z ∈ S, (arrayIndex? z.1).isSome = true := by
    intro z hz
    have := (List.mem_insertionSort _).1 hz
    simpa using (List.mem_filter.1 this).2
  have memN : ∀ z ∈ N, arrayIndex? z.1 = none := by
    intro z hz
    simpa using (List.mem_filter.1 hz).2
  have sortedS : S.Pairwise (fun a b => (arrayIndex? a.1).getD 0 ≤ (arrayIndex? b.1).getD 0) := by
    haveI : IsTotal (String × α)
        (fun a b => (arrayIndex? a.1).getD 0 ≤ (arrayIndex? b.1).getD 0) :=
      ⟨fun a b => Nat.le_total _ _⟩
    haveI : IsTrans (String × α)
        (fun a b => (arrayIndex? a.1).getD 0 ≤ (arrayIndex? b.1).getD 0) :=
      ⟨fun a b c hab hbc => Nat.le_trans hab hbc⟩
    exact List.sorted_insertionSort _ _
  obtain ⟨u, v, huv, hu, hv⟩ := List.sublist_append_iff.1 h
  match u, huv, hu with
  | [], huv, _ =>
    simp only [List.nil_append] at huv
    subst huv
    have hx := memN x (hv.subset (List.mem_cons_self _ _))
    have hy := memN y (hv.subset (List.mem_cons_of_mem _ (List.mem_cons_self _ _)))
    refine ⟨fun i j hi _ => ?_, fun _ => ⟨hy, hv.trans (List.filter_sublist _)⟩⟩
    rw [hx] at hi
    cases hi
  | [a], huv, hu =>
    simp only [List.singleton_append, List.cons.injEq] at huv
    obtain ⟨rfl, rfl⟩ := huv
    have hx := memS x (hu.subset (List.mem_cons_self _ _))
    have hy := memN y (hv.subset (List.mem_cons_self _ _))
    refine ⟨fun i j _ hj => ?_, fun hn => ?_⟩
    · rw [hy] at hj
      cases hj
    · rw [hn] at hx
      cases hx
  | [a, b], huv, hu =>
    simp only [List.cons_append, List.nil_append, List.cons.injEq] at huv
    obtain ⟨rfl, rfl, rfl⟩ := huv
    have hx := memS x (hu.subset (List.mem_cons_self _ _))
    have hle := List.rel_of_pairwise_cons (sortedS.sublist hu) (List.mem_cons_self _ _)
    refine ⟨fun i j hi hj => ?_, fun hn => ?_⟩
    · simpa [hi, hj] using hle
    · rw [hn] at hx
      cases hx
  | a :: b :: c :: rest, huv, _ =>
    simp at huv

/-- C8 (as stated, refuted). In the records `[{type: "waiver", adds: {"100": 1}},
{type: "waiver", adds: {"20": 1}}]` player 100 is observed first and both players score 1,
yet the ranked list has player 20 before player 100. -/
theorem tie_break_fails_on_numeric_ids :
    (App.metricsLoop [some (waiverAdd "100" (JSVal.num (JSNum.fin 1))),
        some (waiverAdd "20" (JSVal.num (JSNum.fin 1)))]).props.map Prod.fst = ["100", "20"] ∧
    (App.leagueArr [some (waiverAdd "100" (JSVal.num (JSNum.fin 1))),
        some (waiverAdd "20" (JSVal.num (JSNum.fin 1)))] none).map
      (fun e => (e.player_id, e.score)) = [("20", JSNum.fin 1), ("100", JSNum.fin 1)] := by
  decide!

/-- C8 (amended). Whenever two entries have equal scores, the ranked list keeps them in the
order of `Object.entries(metrics)`.  In that order an id that is an array index (a canonical
decimal integer such as "100" or "20") never follows an id that is not one, two array-index
ids stand in ascending numeric order, and two other ids stand in the order in which they
were first created in `metrics`; the creation order is the order of first appearance in the
sequence of ids visited by the loops.  The batch `summary` keeps ties likewise. -/
theorem tie_break_entries_order (txs : List (Option Tx)) (players : Option (JSObject Player))
    (dir : JSObject Player) (a b : Entry) (x y : String × Counters) :
    (a.score = b.score →
      List.Sublist [a, b] ((App.metricsLoop txs).entries.map (App.toEntry players)) →
      List.Sublist [a, b] (App.leagueArr txs players)) ∧
    (a.score = b.score →
      List.Sublist [a, b] ((UpdateData.metricsLoop txs).entries.map (UpdateData.toEntry dir)) →
      List.Sublist [a, b] (UpdateData.summary txs dir)) ∧
    (List.Sublist [x, y] (App.metricsLoop txs).entries →
      (∀ i j, arrayIndex? x.1 = some i → arrayIndex? y.1 = some j → i ≤ j) ∧
      (arrayIndex? x.1 = none →
        arrayIndex? y.1 = none ∧ List.Sublist [x, y] (App.metricsLoop txs).props)) ∧
    (App.metricsLoop txs).props.map Prod.fst =
      ((txs.flatMap App.recordDeltas).map Prod.fst).foldl
        (fun ks k => if k ∈ ks then ks else ks ++ [k]) [] := by
  refine ⟨fun hs h => ?_, fun hs h => ?_, fun h => orderEntries_pair _ x y h, ?_⟩
  · exact List.pair_sublist_insertionSort (by rw [byScoreDesc, hs]; exact cmp_equal_scores _) h
  · exact List.pair_sublist_insertionSort (by rw [byScoreDesc, hs]; exact cmp_equal_scores _) h
  · rw [App_metricsLoop_eq, keys_foldDeltas]
    rfl

/-- Witness for C8 (amended): players 20 and 100, tied at score 1, stand in the ranked list
as in `Object.entries(metrics)`. -/
theorem tie_break_entries_order_witness :
    List.Sublist
      [(⟨"20", "20", JSNum.fin 1, 0, JSNum.fin 0, JSNum.fin 1⟩ : Entry),
        ⟨"100", "100", JSNum.fin 1, 0, JSNum.fin 0, JSNum.fin 1⟩]
      (App.leagueArr [some (waiverAdd "100" (JSVal.num (JSNum.fin 1))),
        some (waiverAdd "20" (JSVal.num (JSNum.fin 1)))] none) :=
  (tie_break_entries_order [some (waiverAdd "100" (JSVal.num (JSNum.fin 1))),
      some (waiverAdd "20" (JSVal.num (JSNum.fin 1)))] none JSObject.empty
    ⟨"20", "20", JSNum.fin 1, 0, JSNum.fin 0, JSNum.fin 1⟩
    ⟨"100", "100", JSNum.fin 1, 0, JSNum.fin 0, JSNum.fin 1⟩
    ("20", newCounters) ("100", newCounters)).1 rfl (by decide!)

/-! ## C9: the score formula -/

/-- The cache read honours the 24 hour window on an item that carries a numeric `ts`: it
returns the stored data exactly when `now - ts` is below 86 400 000 ms. -/
theorem cacheRead_stamped (t0 now : Nat) (data : JSObject Player) :
    App.cacheRead (some (CacheItem.stamped (JSVal.num (JSNum.ofNat t0)) data)) now =
      if (now : ℚ) - t0 < 86400000 then some data else none := by
  simp only [App.cacheRead, Number, JSNum.ofNat, JSNum.sub, JSNum.neg, JSNum.add, JSNum.lt,
    decide_eq_true_eq]
  norm_num [sub_eq_add_neg]

/-- C3 (code evaluated). Whatever directory the first call fetches at time `t0`, the item it
stores is the bare directory, without a timestamp, so every later call, at any time `t` and
in particular at `t - t0` below 24 hours, fetches again. -/
theorem directory_cache_never_hits (players : JSObject Player) (t0 t : Nat)
    (fetch : Option (JSObject Player)) :
    (App.getPlayersMap none t0 (some players)).fetches = 1 ∧
    (App.getPlayersMap none t0 (some players)).store = some (CacheItem.directory players) ∧
    (App.getPlayersMap (App.getPlayersMap none t0 (some players)).store t fetch).fetches = 1 := by
  refine ⟨rfl, rfl, ?_⟩
  cases fetch <;> rfl

/-! ## C2: the live path and the batch path -/

/-- C2 (code evaluated). On the record `{adds: {"7": 1}}`, which has no `type`, the live path
skips the record and ranks nobody, while the batch path counts the add and ranks player 7. -/
theorem live_and_batch_differ_on_untyped_record :
    App.leagueArr [some untypedAdd] (some oneManDirectory) = [] ∧
    UpdateData.summary [some untypedAdd] oneManDirectory =
      [⟨"7", "Ada Lovelace", JSNum.fin 1, 0, JSNum.fin 0, JSNum.fin 1⟩] := by
  decide!

/-- The two paths agree on record lists in which every record has a truthy `type`. -/
theorem live_and_batch_agree_on_typed_records (txs : List (Option Tx)) (dir : JSObject Player)
    (h : ∀ t, some t ∈ txs → truthy t.type = true) :
    App.leagueArr txs (some dir) = UpdateData.summary txs dir := by
  have hm : App.metricsLoop txs = UpdateData.metricsLoop txs := by
    rw [App_metricsLoop_eq, UpdateData_metricsLoop_eq]
    congr 1
    refine List.flatMap_congr ?_
    intro t ht
    cases t with
    | none => rfl
    | some t => simp [App.recordDeltas, UpdateData.recordDeltas, h t ht]
  unfold App.leagueArr UpdateData.summary
  rw [hm]
  rfl

/-! ## The worked example of the specification -/

/-- The records `[{type:"waiver", adds:{"100":1}}, {type:"waiver", drops:{"100":1}},
{type:"trade", adds:{"100":1,"200":1}}]` rank player 100 (adds 2, trades 1, drops 1,
score 5) before player 200 (adds 1, trades 1, drops 0, score 4), on both paths. -/
theorem worked_example :
    App.leagueArr [some (waiverAdd "100" (JSVal.num (JSNum.fin 1))),
        some (waiverDrop "100" (JSVal.num (JSNum.fin 1))), some tradeOfTwo] none =
      [⟨"100", "100", JSNum.fin 2, 1, JSNum.fin 1, JSNum.fin 5⟩,
        ⟨"200", "200", JSNum.fin 1, 1, JSNum.fin 0, JSNum.fin 4⟩] ∧
    UpdateData.summary [some (waiverAdd "100" (JSVal.num (JSNum.fin 1))),
        some (waiverDrop "100" (JSVal.num (JSNum.fin 1))), some tradeOfTwo] JSObject.empty =
      [⟨"100", "100", JSNum.fin 2, 1, JSNum.fin 1, JSNum.fin 5⟩,
        ⟨"200", "200", JSNum.fin 1, 1, JSNum.fin 0, JSNum.fin 4⟩] := by
  decide!
